import Mathlib

/-!
Verification development for the lzlib4 block-framing compression layer
(`lzlib4.cpp` / `lzlib4_wrapper.h`).

The engine code of `lzlib4.cpp` is embedded shallowly: byte buffers become
`List Nat`, the `size_t` cursors `avail_in`/`avail_out` become explicit `Nat`
fields (with 64-bit wrap-around modelled at the subtraction sites the C code
leaves unguarded), and the stream struct becomes a Lean structure.  The LZ4
codec itself (`LZ4_compress_HC_continue`, `LZ4_decompress_safe_continue`,
`LZ4_resetStreamHC`) is an external collaborator and is modelled abstractly
as a record of functions, with one concrete well-behaved instance.
-/

namespace Lzlib4

/-- 2^64, the modulus of `size_t` arithmetic in the C sources. -/
def SIZE_T_MOD : Nat := 18446744073709551616

/-- `size_t` subtraction `a - b` with 64-bit wrap-around.  Used at the
subtraction sites where the C code does not guard against underflow. -/
def sub64 (a b : Nat) : Nat := (a + (SIZE_T_MOD - b % SIZE_T_MOD)) % SIZE_T_MOD

/-- Read `k` bytes starting at a cursor modelled by the list `l`.  Memory
beyond the region supplied by the caller is modelled as zero bytes (the C
code can read past the supplied buffer; such reads are indeterminate in C). -/
def readBytes (l : List Nat) (k : Nat) : List Nat :=
  l.take k ++ List.replicate (k - l.length) 0

/-- Serialize a 32-bit value to four little-endian bytes (the native byte
order used by the `memcpy` of `LZLIB4_BLOCK_HEADER` on the reference
platform). -/
def u32le (n : Nat) : List Nat :=
  [n % 256, n / 256 % 256, n / 65536 % 256, n / 16777216 % 256]

/-- Read a 32-bit little-endian value from the head of a byte list, with
missing bytes modelled as zero (see `readBytes`). -/
def readU32 (l : List Nat) : Nat :=
  l.getD 0 0 + 256 * l.getD 1 0 + 65536 * l.getD 2 0 + 16777216 * l.getD 3 0

/-- One shift-and-conditionally-xor step of the standard CRC-32 table
generator (polynomial 0xEDB88320). -/
def crcStep (c : Nat) : Nat :=
  if c % 2 = 1 then Nat.xor 3988292384 (c / 2) else c / 2

/-- Modelled from the spec: `crc_32_tab` lives in the missing `lzlib4.h`
header; it is the standard CRC-32 table, generated here entry by entry. -/
def crcTab (b : Nat) : Nat := crcStep^[8] b

/-- One byte update of `lzlib4::crc32`:
`oldcrc32 = crc_32_tab[(oldcrc32 ^ byte) & 0xff] ^ (oldcrc32 >> 8)`. -/
def crc32Update (c b : Nat) : Nat :=
  Nat.xor (crcTab (Nat.xor c b % 256)) (c / 256)

/-- `lzlib4::crc32`: fold `crc32Update` over the bytes starting from
`0xFFFFFFFF`, then complement the result. -/
def crc32 (l : List Nat) : Nat :=
  Nat.xor (l.foldl crc32Update 4294967295) 4294967295

/-- Modelled from the spec: `LZLIB4_MAX_BLOCK_SIZE` is defined in the missing
`lzlib4.h`; the value is taken from the block-size limit documented in
`lzlib4_wrapper.h` (65280). -/
def LZLIB4_MAX_BLOCK_SIZE : Nat := 65280

/-- The `LZ4_COMPRESSBOUND` macro of the external lz4 library:
`isize + isize/255 + 16` (worst-case compressed size). -/
def LZ4_COMPRESSBOUND (isize : Nat) : Nat := isize + isize / 255 + 16

/-- `sizeof(LZLIB4_BLOCK_HEADER)`: three packed `uint32_t` fields. -/
def HEADER_SIZE : Nat := 12

/-- `lzlib4_flush_mode` values (from `lzlib4_wrapper.h`). -/
def LZLIB4_NO_FLUSH : Nat := 0

/-- `LZLIB4_FINISH` member of `lzlib4_flush_mode`. -/
def LZLIB4_FINISH : Nat := 4

/-- `lzlib4_block_mode` member `LZLIB4_INPUT_NOSPLIT`. -/
def LZLIB4_INPUT_NOSPLIT : Nat := 0

/-- `lzlib4_block_mode` member `LZLIB4_INPUT_SPLIT`. -/
def LZLIB4_INPUT_SPLIT : Nat := 1

/-- Modelled from the spec: the `LZLIB4_RC_*` return codes are defined in the
missing `lzlib4.h`.  One constructor per distinct constant used by
`lzlib4.cpp`; note the C code uses the single constant
`LZLIB4_RC_BUFFER_ERROR` for output-space, allocation and internal-index
failures alike, which `bufferError` mirrors. -/
inductive Rc where
  | ok
  | blockSizeError
  | bufferError
  | compressionError
  | blockDamaged
deriving DecidableEq

/-- Modelled from the spec: the Codec Adapter contract (spec §4.4).  The LZ4
codec is an external collaborator; its continuation compressor, continuation
decompressor, stream reset and stream creation are abstract operations. -/
structure LZ4Codec where
  CSt : Type
  DSt : Type
  /-- `LZ4_compress_HC_continue state input capacity`: the compressed bytes
  (empty list = the C return value 0, failure) and the updated state. -/
  compressHCContinue : CSt → List Nat → Nat → List Nat × CSt
  /-- `LZ4_resetStreamHC state level`. -/
  resetStreamHC : CSt → Int → CSt
  /-- `LZ4_decompress_safe_continue state input capacity`: the decoded bytes
  (the engine checks their length against the declared size) and state. -/
  decompressSafeContinue : DSt → List Nat → Nat → List Nat × DSt
  /-- `LZ4_createStreamHC ()`. -/
  createHC : CSt
  /-- `LZ4_createStreamDecode ()`. -/
  createDecode : DSt

/-- The model compressor's output for a block: one marker byte then the raw
input, so the compressed length is always nonzero as with real LZ4 (which
also returns 1 byte for empty input). -/
def modelCompressBytes (input : List Nat) : List Nat := 0 :: input

/-- Modelled from the spec: a concrete well-behaved codec instance.  The
compression state is a reset counter (so that dictionary resets are
observable), compression prefixes a marker byte, decompression strips it. -/
@[reducible] def modelCodec : LZ4Codec where
  CSt := Nat
  DSt := Unit
  compressHCContinue := fun s inp cap =>
    (if inp.length + 1 ≤ cap then modelCompressBytes inp else [], s)
  resetStreamHC := fun s _ => s + 1
  decompressSafeContinue := fun s inp cap => ((inp.drop 1).take cap, s)
  createHC := 0
  createDecode := ()

/-- The compression-side fields of `lzlib4_stream` plus the class member
`compression_level`.  `compress_in_buf` is the valid prefix of
`compress_in_buffer`, so `compress_in_buf.length` is `compress_in_index`. -/
structure CompStream (σ : Type) where
  next_in : List Nat
  avail_in : Nat
  written_out : List Nat
  avail_out : Nat
  compress_in_size : Nat
  compress_in_buf : List Nat
  compress_out_size : Nat
  compress_block_mode : Nat
  compression_level : Int
  strm_lz4 : σ
deriving DecidableEq

/-- Result of one iteration of the `lzlib4::compress` loop body: an early
`return` with a code, or fall-through to the next loop-condition check with
the (possibly cleared) local `flush_mode`. -/
inductive CStepRes (σ : Type) where
  | ret (rc : Rc) (st : CompStream σ)
  | next (st : CompStream σ) (flush : Nat)

/-- One iteration of the body of the `while (avail_in || flush_mode)` loop of
`lzlib4::compress` (lines 105-190 of `lzlib4.cpp`). -/
def compress_step (c : LZ4Codec) (st : CompStream c.CSt) (flush : Nat) :
    CStepRes c.CSt :=
  let space_left := st.compress_in_size - st.compress_in_buf.length
  let to_compress0 : Bool :=
    st.compress_block_mode = LZLIB4_INPUT_NOSPLIT ∧ space_left < st.avail_in
  let to_read := if to_compress0 then 0 else min space_left st.avail_in
  let st1 :=
    if to_read ≠ 0 then
      { st with compress_in_buf := st.compress_in_buf ++ readBytes st.next_in to_read,
                next_in := st.next_in.drop to_read,
                avail_in := sub64 st.avail_in to_read }
    else st
  if st1.compress_in_buf.length > st1.compress_in_size then
    .ret .bufferError st1
  else
    let boundary : Bool :=
      st1.compress_in_buf.length = st1.compress_in_size ∨
        (st1.avail_in = 0 ∧ 0 < flush)
    let to_compress : Bool := to_compress0 || boundary
    let flush1 := if boundary then LZLIB4_NO_FLUSH else flush
    if to_compress then
      let r := c.compressHCContinue st1.strm_lz4 st1.compress_in_buf st1.compress_out_size
      let st2 := { st1 with strm_lz4 := r.2 }
      if r.1.length ≠ 0 then
        if r.1.length + HEADER_SIZE > st2.avail_out then
          .ret .bufferError st2
        else
          let crc := crc32 st2.compress_in_buf
          let header := u32le r.1.length ++ u32le st2.compress_in_buf.length ++ u32le crc
          .next { st2 with written_out := st2.written_out ++ header ++ r.1,
                           avail_out := st2.avail_out - HEADER_SIZE - r.1.length,
                           compress_in_buf := [] } flush1
      else
        .ret .compressionError st2
    else
      .next st1 flush1

/-- Exit of the `lzlib4::compress` loop: an early `return`, or normal
termination of the `while` with the final value of the local `flush_mode`. -/
inductive CompExit (σ : Type) where
  | early (rc : Rc) (st : CompStream σ)
  | done (st : CompStream σ) (flush : Nat)

/-- The `while (avail_in || flush_mode)` loop of `lzlib4::compress`,
fuel-indexed (`none` = out of fuel). -/
def compress_loop (c : LZ4Codec) : Nat → CompStream c.CSt → Nat →
    Option (CompExit c.CSt)
  | 0, _, _ => none
  | fuel + 1, st, flush =>
    if st.avail_in ≠ 0 ∨ flush ≠ 0 then
      match compress_step c st flush with
      | .ret rc st' => some (.early rc st')
      | .next st' flush' => compress_loop c fuel st' flush'
    else
      some (.done st flush)

/-- `lzlib4::compress` (lines 97-198): the no-split precondition check, the
loop, and the post-loop reset that fires when the local `flush_mode` still
equals `LZLIB4_FINISH`. -/
def compress (c : LZ4Codec) (fuel : Nat) (st : CompStream c.CSt)
    (flush_mode : Nat) : Option (Rc × CompStream c.CSt) :=
  if st.compress_block_mode = LZLIB4_INPUT_NOSPLIT ∧
      st.compress_in_size < st.avail_in then
    some (.blockSizeError, st)
  else
    match compress_loop c fuel st flush_mode with
    | none => none
    | some (.early rc st') => some (rc, st')
    | some (.done st' flushF) =>
      if flushF = LZLIB4_FINISH then
        some (.ok, { st' with
          strm_lz4 := c.resetStreamHC st'.strm_lz4 st'.compression_level })
      else
        some (.ok, st')

/-- The compression constructor `lzlib4::lzlib4(block_size, block_mode,
comp_level)` (lines 56-91), with empty input/output cursors. -/
def compInit (c : LZ4Codec) (block_size : Nat) (block_mode : Nat)
    (comp_level : Int) : CompStream c.CSt where
  next_in := []
  avail_in := 0
  written_out := []
  avail_out := 0
  compress_in_size := block_size
  compress_in_buf := []
  compress_out_size := LZ4_COMPRESSBOUND block_size + HEADER_SIZE
  compress_block_mode := block_mode
  compression_level := comp_level
  strm_lz4 := c.resetStreamHC c.createHC comp_level

/-- Point the stream at a fresh caller-supplied input region and output
capacity, as a caller does before each call. -/
def CompStream.withCursors (st : CompStream σ) (input : List Nat)
    (avail_out : Nat) : CompStream σ :=
  { st with next_in := input, avail_in := input.length, avail_out := avail_out }

/-- The `LZLIB4_BLOCK_HEADER` record.  Modelled from the spec for the missing
`lzlib4.h`: three `uint32_t` fields with the zero default member initializers
used by the wrapper header's version of the struct, so a freshly
default-initialized local `header` has all fields zero. -/
structure BlockHeader where
  compressed_size : Nat
  uncompressed_size : Nat
  crc : Nat
deriving DecidableEq

/-- Pop the next outcome of the modelled allocator: `malloc`/`realloc`
succeeds unless the head of the outcome list says otherwise. -/
def nextAlloc : List Bool → Bool × List Bool
  | [] => (true, [])
  | b :: t => (b, t)

/-- The decompression-side fields of `lzlib4_stream`.  `decompress_in_buf` is
the valid prefix of `decompress_in_buffer` (its length is
`decompress_in_index`); the `_alloc` booleans model whether the corresponding
buffer pointer is non-NULL; `allocs` is the environment's allocator outcome
list (see `nextAlloc`). -/
structure DecompStream (δ : Type) where
  next_in : List Nat
  avail_in : Nat
  written_out : List Nat
  avail_out : Nat
  partial_block : Bool
  decompress_in_size : Nat
  decompress_in_buf : List Nat
  decompress_in_size_real : Nat
  decompress_in_alloc : Bool
  decompress_out_size : Nat
  decompress_out_size_real : Nat
  decompress_out_alloc : Bool
  decompress_tmp_buffer : List Nat
  decompress_tmp_size : Nat
  decompress_tmp_index : Nat
  decompress_tmp_size_real : Nat
  strm_lz4_decode : δ
  allocs : List Bool
deriving DecidableEq

/-- Result of one iteration of the `lzlib4::decompress` loop body: an early
`return`, the `break` at the bottom of the loop when `avail_out == 0`, or
fall-through to the next loop-condition check carrying the local `header`. -/
inductive DStepRes (δ : Type) where
  | ret (rc : Rc) (st : DecompStream δ)
  | brk (st : DecompStream δ)
  | next (st : DecompStream δ) (header : BlockHeader)

/-- One iteration of the body of the `while (avail_in)` loop of
`lzlib4::decompress` (lines 204-344 of `lzlib4.cpp`).  Note: the header is
read by `memcpy` from `next_in` without checking that `avail_in` covers it
(missing bytes are modelled as zeros, see `readBytes`), and the cursor
advance `avail_in -= sizeof(header)` is the unguarded `size_t` subtraction
`sub64`. -/
def decompress_step (c : LZ4Codec) (check_crc : Bool)
    (st : DecompStream c.DSt) (header : BlockHeader) : DStepRes c.DSt :=
  let parsed : (Rc × DecompStream c.DSt) ⊕ (DecompStream c.DSt × BlockHeader) :=
    if st.partial_block then .inr (st, header)
    else
      let h : BlockHeader :=
        { compressed_size := readU32 st.next_in
          uncompressed_size := readU32 (st.next_in.drop 4)
          crc := readU32 (st.next_in.drop 8) }
      if h.compressed_size = 0 ∨ h.uncompressed_size = 0 ∨ h.crc = 0 then
        .inl (.blockDamaged, st)
      else if h.compressed_size > LZ4_COMPRESSBOUND LZLIB4_MAX_BLOCK_SIZE ∨
          h.uncompressed_size > LZLIB4_MAX_BLOCK_SIZE then
        .inl (.blockDamaged, st)
      else if h.uncompressed_size > st.avail_out then
        .inl (.bufferError, st)
      else
        let stIn : (Rc × DecompStream c.DSt) ⊕ DecompStream c.DSt :=
          if h.compressed_size > st.decompress_in_size_real then
            let a := nextAlloc st.allocs
            if a.1 then
              .inr { st with decompress_in_alloc := true,
                             decompress_in_size_real := h.compressed_size,
                             allocs := a.2 }
            else
              .inl (.bufferError,
                { st with decompress_in_alloc := false, allocs := a.2 })
          else
            .inr st
        match stIn with
        | .inl e => .inl e
        | .inr st1 =>
          let stOut : (Rc × DecompStream c.DSt) ⊕ DecompStream c.DSt :=
            if h.uncompressed_size > st1.decompress_out_size_real then
              let a := nextAlloc st1.allocs
              if a.1 then
                .inr { st1 with decompress_out_alloc := true,
                                decompress_out_size_real := h.uncompressed_size,
                                allocs := a.2 }
              else
                .inl (.bufferError,
                  { st1 with decompress_out_alloc := false, allocs := a.2 })
            else
              .inr st1
          match stOut with
          | .inl e => .inl e
          | .inr st2 =>
            .inr ({ st2 with decompress_in_size := h.compressed_size,
                             decompress_out_size := h.uncompressed_size,
                             partial_block := true,
                             next_in := st2.next_in.drop HEADER_SIZE,
                             avail_in := sub64 st2.avail_in HEADER_SIZE }, h)
  match parsed with
  | .inl (rc, st') => .ret rc st'
  | .inr (stA, hA) =>
    let space_left := stA.decompress_in_size - stA.decompress_in_buf.length
    let to_read := if space_left ≠ 0 then min space_left stA.avail_in else 0
    let stB :=
      if to_read ≠ 0 then
        { stA with
            decompress_in_buf := stA.decompress_in_buf ++ readBytes stA.next_in to_read,
            next_in := stA.next_in.drop to_read,
            avail_in := sub64 stA.avail_in to_read }
      else stA
    if to_read ≠ 0 ∧ stB.decompress_in_buf.length > stB.decompress_in_size then
      .ret .bufferError stB
    else
      let to_decompress : Bool :=
        space_left = 0 ∨
          (to_read ≠ 0 ∧ stB.decompress_in_buf.length = stB.decompress_in_size)
      if to_decompress then
        let r := c.decompressSafeContinue stB.strm_lz4_decode
          stB.decompress_in_buf stB.decompress_out_size
        let stC := { stB with strm_lz4_decode := r.2 }
        if r.1.length ≠ stC.decompress_out_size then
          .ret .blockSizeError stC
        else if check_crc ∧ crc32 r.1 ≠ hA.crc then
          .ret .blockDamaged stC
        else
          let stD := { stC with
            written_out := stC.written_out ++ r.1,
            avail_out := sub64 stC.avail_out r.1.length,
            decompress_in_buf := [],
            partial_block := false }
          if stD.avail_out = 0 then .brk stD else .next stD hA
      else
        if stB.avail_out = 0 then .brk stB else .next stB hA

/-- Exit of the `lzlib4::decompress` loop: an early `return` with a code, or
normal termination (loop condition false, or the `avail_out == 0` break),
both of which make the function return 0. -/
inductive DecExit (δ : Type) where
  | early (rc : Rc) (st : DecompStream δ)
  | done (st : DecompStream δ)

/-- The `while (avail_in)` loop of `lzlib4::decompress`, fuel-indexed. -/
def decompress_loop (c : LZ4Codec) (check_crc : Bool) :
    Nat → DecompStream c.DSt → BlockHeader → Option (DecExit c.DSt)
  | 0, _, _ => none
  | fuel + 1, st, header =>
    if st.avail_in ≠ 0 then
      match decompress_step c check_crc st header with
      | .ret rc st' => some (.early rc st')
      | .brk st' => some (.done st')
      | .next st' header' => decompress_loop c check_crc fuel st' header'
    else
      some (.done st)

/-- `lzlib4::decompress` (lines 201-347).  The local `header` starts out with
all fields zero (default member initializers, see `BlockHeader`); a resumed
call therefore verifies the CRC against 0, not against the block's header. -/
def decompress (c : LZ4Codec) (check_crc : Bool) (fuel : Nat)
    (st : DecompStream c.DSt) : Option (Rc × DecompStream c.DSt) :=
  match decompress_loop c check_crc fuel st ⟨0, 0, 0⟩ with
  | none => none
  | some (.early rc st') => some (rc, st')
  | some (.done st') => some (.ok, st')

/-- The decompression constructor `lzlib4::lzlib4()` (lines 31-45): empty
cursors, all decompression buffers unallocated, with the given allocator
outcome list as environment. -/
def decompInit (c : LZ4Codec) (allocs : List Bool) : DecompStream c.DSt where
  next_in := []
  avail_in := 0
  written_out := []
  avail_out := 0
  partial_block := false
  decompress_in_size := 0
  decompress_in_buf := []
  decompress_in_size_real := 0
  decompress_in_alloc := false
  decompress_out_size := 0
  decompress_out_size_real := 0
  decompress_out_alloc := false
  decompress_tmp_buffer := []
  decompress_tmp_size := 0
  decompress_tmp_index := 0
  decompress_tmp_size_real := 0
  strm_lz4_decode := c.createDecode
  allocs := allocs

/-- Point a decompression stream at a fresh caller-supplied input region and
output capacity. -/
def DecompStream.withCursors (st : DecompStream δ) (input : List Nat)
    (avail_out : Nat) : DecompStream δ :=
  { st with next_in := input, avail_in := input.length, avail_out := avail_out }

/-- The `while (strm.avail_out)` loop of `lzlib4::decompress_partial`
(lines 364-429), fuel-indexed.  The staging-fetch branch reads a header at
`next_in` (without consuming it), grows the staging buffer by `realloc` if
needed, redirects the output cursor at the staging buffer, runs the full
`lzlib4::decompress`, then restores the caller's output cursor; the copy
section then serves `min(staging remaining, avail_out)` bytes. -/
def decompress_partial_loop (c : LZ4Codec) (reset check_crc : Bool) :
    Nat → DecompStream c.DSt → Option (Rc × DecompStream c.DSt)
  | 0, _ => none
  | fuel + 1, st =>
    if st.avail_out ≠ 0 then
      let fetched : Option ((Rc × DecompStream c.DSt) ⊕ DecompStream c.DSt) :=
        if st.decompress_tmp_size - st.decompress_tmp_index = 0 ∨ reset then
          let h : BlockHeader :=
            { compressed_size := readU32 st.next_in
              uncompressed_size := readU32 (st.next_in.drop 4)
              crc := readU32 (st.next_in.drop 8) }
          if h.compressed_size > LZ4_COMPRESSBOUND LZLIB4_MAX_BLOCK_SIZE ∨
              h.uncompressed_size > LZLIB4_MAX_BLOCK_SIZE then
            some (.inl (.blockSizeError, st))
          else
            let grown : (Rc × DecompStream c.DSt) ⊕ DecompStream c.DSt :=
              if h.uncompressed_size > st.decompress_tmp_size_real then
                let a := nextAlloc st.allocs
                if a.1 then
                  .inr { st with decompress_tmp_size_real := h.uncompressed_size,
                                 allocs := a.2 }
                else
                  .inl (.bufferError, { st with allocs := a.2 })
              else
                .inr st
            match grown with
            | .inl e => some (.inl e)
            | .inr st1 =>
              match decompress c check_crc fuel
                  { st1 with written_out := [],
                             avail_out := h.uncompressed_size } with
              | none => none
              | some (rc, innerOut) =>
                let restored := { innerOut with
                  written_out := st1.written_out,
                  avail_out := st1.avail_out,
                  decompress_tmp_buffer := innerOut.written_out ++
                    st1.decompress_tmp_buffer.drop innerOut.written_out.length }
                if rc ≠ .ok then
                  some (.inl (rc, restored))
                else
                  some (.inr { restored with
                    decompress_tmp_size := h.uncompressed_size,
                    decompress_tmp_index := 0 })
        else
          some (.inr st)
      match fetched with
      | none => none
      | some (.inl e) => some e
      | some (.inr st2) =>
        if st2.decompress_tmp_size - st2.decompress_tmp_index = 0 ∧
            st2.avail_in = 0 then
          some (.ok, st2)
        else
          let to_read := min (st2.decompress_tmp_size - st2.decompress_tmp_index)
            st2.avail_out
          let out := readBytes
            (st2.decompress_tmp_buffer.drop st2.decompress_tmp_index) to_read
          decompress_partial_loop c reset check_crc fuel
            { st2 with written_out := st2.written_out ++ out,
                       decompress_tmp_index := st2.decompress_tmp_index + to_read,
                       avail_out := st2.avail_out - to_read }
    else
      some (.ok, st)

/-- `lzlib4::decompress_partial` (lines 358-432).  The `seek_to` parameter is
accepted but unused by the C code and is omitted here. -/
def decompress_partial (c : LZ4Codec) (reset check_crc : Bool) (fuel : Nat)
    (st : DecompStream c.DSt) : Option (Rc × DecompStream c.DSt) :=
  decompress_partial_loop c reset check_crc fuel st

/-- Free a pointer in the modelled heap (the list of live allocation ids):
freeing a live pointer removes it; freeing anything else is a double/invalid
free, reported in the second component. -/
def freeModel (heap : List Nat) (p : Nat) : List Nat × Bool :=
  if p ∈ heap then (heap.erase p, false) else (heap, true)

/-- The pointer fields of `lzlib4` that `lzlib4::close` touches: the two
codec states and the four buffers, `none` = NULL. -/
structure Handle where
  strm_lz4 : Option Nat
  strm_lz4_decode : Option Nat
  compress_in_buffer : Option Nat
  compress_out_buffer : Option Nat
  decompress_in_buffer : Option Nat
  decompress_out_buffer : Option Nat
deriving DecidableEq

/-- `lzlib4::close` (lines 438-461): free every non-NULL pointer, in source
order.  The C code does not null the pointers afterwards, so the handle is
returned unchanged.  The boolean reports whether any free was invalid. -/
def close (h : Handle) (heap : List Nat) : List Nat × Bool :=
  [h.strm_lz4, h.strm_lz4_decode, h.compress_in_buffer, h.compress_out_buffer,
    h.decompress_in_buffer, h.decompress_out_buffer].foldl
    (fun acc p? =>
      match p? with
      | none => acc
      | some p =>
        let r := freeModel acc.1 p
        (r.1, acc.2 || r.2))
    (heap, false)

/-- `lzlib4::~lzlib4` (lines 93-95) just calls `close` again on the same
(unmodified) handle: explicit close followed by destruction. -/
def closeThenDestruct (h : Handle) (heap : List Nat) : Bool × Bool :=
  let r1 := close h heap
  let r2 := close h r1.1
  (r1.2, r2.2)

/-- The exact framed bytes `lzlib4::compress` emits for one block with
payload `P` under `modelCodec`: header (compressed size, uncompressed size,
CRC-32 of the payload, little-endian) followed by the model codec output. -/
def encodeBlock (P : List Nat) : List Nat :=
  u32le (P.length + 1) ++ u32le P.length ++ u32le (crc32 P) ++ modelCompressBytes P

/-- Projection: the codec state carried by a compress-loop step result. -/
def CStepRes.strmOf : CStepRes σ → σ
  | .ret _ s => s.strm_lz4
  | .next s _ => s.strm_lz4

/-- Projection: the codec state carried by a compress-loop exit. -/
def CompExit.strmOf : CompExit σ → σ
  | .early _ s => s.strm_lz4
  | .done s _ => s.strm_lz4

/-- The stream state after `lzlib4::decompress` has consumed and emitted one
whole model-codec block with payload `P`, leaving `rest` in the input: the
cursors have advanced past header and payload, the decoded payload was
appended to the output, the block-size bookkeeping fields hold the block's
sizes, and the two engine buffers have grown to fit if they were smaller. -/
def blockResult (P rest : List Nat) (st : DecompStream Unit) : DecompStream Unit :=
  { st with next_in := rest,
            avail_in := rest.length,
            written_out := st.written_out ++ P,
            avail_out := st.avail_out - P.length,
            partial_block := false,
            decompress_in_buf := [],
            decompress_in_size := P.length + 1,
            decompress_out_size := P.length,
            decompress_in_size_real :=
              if P.length + 1 > st.decompress_in_size_real then P.length + 1
              else st.decompress_in_size_real,
            decompress_in_alloc :=
              if P.length + 1 > st.decompress_in_size_real then true
              else st.decompress_in_alloc,
            decompress_out_size_real :=
              if P.length > st.decompress_out_size_real then P.length
              else st.decompress_out_size_real,
            decompress_out_alloc :=
              if P.length > st.decompress_out_size_real then true
              else st.decompress_out_alloc,
            allocs := [] }

/-- State after the first call of the partial adapter on a fresh staging
buffer: one block fetched and decoded into staging, `avail_out` bytes of it
served to the caller. -/
def afterFirst (P : List Nat) (st : DecompStream Unit) : DecompStream Unit :=
  { st with
    next_in := [],
    avail_in := 0,
    written_out := st.written_out ++ P.take st.avail_out,
    avail_out := 0,
    partial_block := false,
    decompress_in_buf := [],
    decompress_in_size := P.length + 1,
    decompress_out_size := P.length,
    decompress_in_size_real :=
      if P.length + 1 > st.decompress_in_size_real then P.length + 1
      else st.decompress_in_size_real,
    decompress_in_alloc :=
      if P.length + 1 > st.decompress_in_size_real then true
      else st.decompress_in_alloc,
    decompress_out_size_real :=
      if P.length > st.decompress_out_size_real then P.length
      else st.decompress_out_size_real,
    decompress_out_alloc :=
      if P.length > st.decompress_out_size_real then true
      else st.decompress_out_alloc,
    decompress_tmp_buffer := P ++ st.decompress_tmp_buffer.drop P.length,
    decompress_tmp_size := P.length,
    decompress_tmp_index := st.avail_out,
    decompress_tmp_size_real := P.length,
    allocs := [] }

/-- State after one copy-only call of the partial adapter: `avail_out` more
staged bytes served, no new block fetched. -/
def afterCopy (st : DecompStream Unit) : DecompStream Unit :=
  { st with
    written_out := st.written_out ++
      (st.decompress_tmp_buffer.drop st.decompress_tmp_index).take st.avail_out,
    decompress_tmp_index := st.decompress_tmp_index + st.avail_out,
    avail_out := 0 }

/-- Drive the partial adapter with one call per output slice size, feeding
each slice as the caller's output capacity (fails if any call does). -/
def runSlices (cc : Bool) (fuel : Nat) : List Nat → DecompStream Unit →
    Option (DecompStream Unit)
  | [], st => some st
  | s :: ss, st =>
    match decompress_partial modelCodec false cc fuel
        { st with avail_out := s } with
    | some (Rc.ok, st') => runSlices cc fuel ss st'
    | _ => none

/-! ## Helper lemmas -/

theorem sub64_eq_sub {a b : Nat} (h1 : b ≤ a) (h2 : a < SIZE_T_MOD) :
    sub64 a b = a - b := by
  simp only [sub64, SIZE_T_MOD] at *
  omega

theorem readBytes_of_le {l : List Nat} {k : Nat} (h : k ≤ l.length) :
    readBytes l k = l.take k := by
  simp [readBytes, Nat.sub_eq_zero_of_le h]

theorem readU32_u32le {n : Nat} (rest : List Nat) (h : n < 4294967296) :
    readU32 (u32le n ++ rest) = n := by
  simp only [readU32, u32le, List.cons_append, List.nil_append, List.getD_cons_zero,
    List.getD_cons_succ]
  omega

theorem drop4_u32le {n : Nat} (rest : List Nat) :
    (u32le n ++ rest).drop 4 = rest := by
  simp [u32le]

theorem crcStep_lt {c : Nat} (h : c < 4294967296) : crcStep c < 4294967296 := by
  unfold crcStep
  split
  · have : (4294967296 : Nat) = 2 ^ 32 := by norm_num
    rw [this] at h ⊢
    exact Nat.xor_lt_two_pow (by norm_num) (by omega)
  · omega

theorem crcTab_lt {b : Nat} (h : b < 4294967296) : crcTab b < 4294967296 := by
  unfold crcTab
  induction 8 with
  | zero => simpa using h
  | succ k ih =>
    rw [Function.iterate_succ_apply']
    exact crcStep_lt ih

theorem crc32Update_lt {c b : Nat} (h : c < 4294967296) :
    crc32Update c b < 4294967296 := by
  unfold crc32Update
  have h1 : crcTab (Nat.xor c b % 256) < 4294967296 :=
    crcTab_lt (by omega)
  have h2 : c / 256 < 4294967296 := by omega
  have : (4294967296 : Nat) = 2 ^ 32 := by norm_num
  rw [this] at h1 h2 ⊢
  exact Nat.xor_lt_two_pow h1 h2

theorem crc32_foldl_lt {l : List Nat} {c : Nat} (h : c < 4294967296) :
    l.foldl crc32Update c < 4294967296 := by
  induction l generalizing c with
  | nil => simpa using h
  | cons x xs ih => exact ih (crc32Update_lt h)

theorem crc32_lt (l : List Nat) : crc32 l < 4294967296 := by
  unfold crc32
  have h1 : l.foldl crc32Update 4294967295 < 4294967296 :=
    crc32_foldl_lt (by norm_num)
  have : (4294967296 : Nat) = 2 ^ 32 := by norm_num
  rw [this] at h1 ⊢
  exact Nat.xor_lt_two_pow h1 (by norm_num)

/-! ## Claim theorems -/

/-- C1: the claim says that for every byte sequence S and every valid
configuration, compressing S to completion with flush mode Finish and then
decompressing yields exactly S.  This fails: with block_size 4, Split policy
and S = [1,2,3,4,5], a Finish call consumes all input but emits only the
first block — the loop clears the local `flush_mode` when the first block
boundary is hit, so the tail byte stays in the accumulation buffer — and
decompressing the produced stream yields [1,2,3,4] ≠ S. -/
theorem c1_finish_round_trip_loses_tail :
    (compress modelCodec 10
        ((compInit modelCodec 4 LZLIB4_INPUT_SPLIT 9).withCursors [1,2,3,4,5] 100)
        LZLIB4_FINISH).map
      (fun p => (p.1, p.2.written_out, p.2.compress_in_buf, p.2.avail_in)) =
      some (Rc.ok, encodeBlock [1,2,3,4], [5], 0) ∧
    ((compress modelCodec 10
        ((compInit modelCodec 4 LZLIB4_INPUT_SPLIT 9).withCursors [1,2,3,4,5] 100)
        LZLIB4_FINISH).bind (fun p =>
      decompress modelCodec true 10
        ((decompInit modelCodec []).withCursors p.2.written_out 100))).map
      (fun q => (q.1, q.2.written_out)) = some (Rc.ok, [1,2,3,4]) ∧
    [1,2,3,4] ≠ [1,2,3,4,5] := by
  decide

/-- C5: the claim says CRC verification also covers a block whose header was
read in an earlier call and whose payload was completed in a later call.  It
does not: the local `header` of `lzlib4::decompress` is freshly
zero-initialized on each call and the header's CRC is not saved in the
stream state, so the resumed call compares the recomputed CRC against 0 and
rejects a perfectly valid block with BlockDamaged.  Here block
`encodeBlock [1,2,3]` (CRC ≠ 0) is fed as 14 bytes then 2 bytes. -/
theorem c5_resumed_crc_check_uses_zeroed_header :
    (decompress modelCodec true 10
        ((decompInit modelCodec []).withCursors ((encodeBlock [1,2,3]).take 14) 10)).map
      (fun q => (q.1, q.2.partial_block, q.2.decompress_in_buf)) =
      some (Rc.ok, true, [0, 1]) ∧
    ((decompress modelCodec true 10
        ((decompInit modelCodec []).withCursors ((encodeBlock [1,2,3]).take 14) 10)).bind
      (fun q => decompress modelCodec true 10
        { q.2 with next_in := (encodeBlock [1,2,3]).drop 14, avail_in := 2 })).map
      (fun r => (r.1, r.2.written_out)) = some (Rc.blockDamaged, []) ∧
    crc32 [1,2,3] ≠ 0 := by
  decide

/-- C6: the claim says feeding a valid stream in pieces as small as one byte
yields output identical to feeding it at once.  It does not: when a call
starts a new block with fewer than the 12 header bytes available,
`lzlib4::decompress` reads the header from beyond the supplied input (no
`avail_in` check; out-of-region bytes modelled as zeros) and rejects the
garbage header, consuming nothing — so one-byte-at-a-time feeding fails on
the first call while the single full call succeeds with output [1,2,3]. -/
theorem c6_single_byte_feeding_misreads_header :
    (decompress modelCodec false 10
        ((decompInit modelCodec []).withCursors (encodeBlock [1,2,3]) 10)).map
      (fun q => (q.1, q.2.written_out)) = some (Rc.ok, [1,2,3]) ∧
    (decompress modelCodec false 10
        ((decompInit modelCodec []).withCursors ((encodeBlock [1,2,3]).take 1) 10)).map
      (fun q => (q.1, q.2.written_out, q.2.next_in, q.2.avail_in)) =
      some (Rc.blockDamaged, [], [4], 1) := by
  decide

/-- C7: under the NoSplit fill policy, a compress call whose available input
exceeds the configured block capacity fails with BlockTooLarge
(`LZLIB4_RC_BLOCK_SIZE_ERROR`) before the loop, returning the stream
unchanged: no input consumed, nothing copied into the accumulation buffer,
nothing emitted. -/
theorem c7_nosplit_oversized_input_rejected (c : LZ4Codec) (fuel : Nat)
    (st : CompStream c.CSt) (flush : Nat)
    (hmode : st.compress_block_mode = LZLIB4_INPUT_NOSPLIT)
    (hbig : st.compress_in_size < st.avail_in) :
    compress c fuel st flush = some (.blockSizeError, st) := by
  simp [compress, hmode, hbig]

/-- Witness for C7 at a concrete handle: block size 2, NoSplit, 3 input
bytes. -/
theorem c7_nosplit_oversized_input_rejected_witness :
    compress modelCodec 10
        ((compInit modelCodec 2 LZLIB4_INPUT_NOSPLIT 9).withCursors [1,2,3] 100) 0 =
      some (.blockSizeError,
        (compInit modelCodec 2 LZLIB4_INPUT_NOSPLIT 9).withCursors [1,2,3] 100) :=
  c7_nosplit_oversized_input_rejected modelCodec 10
    ((compInit modelCodec 2 LZLIB4_INPUT_NOSPLIT 9).withCursors [1,2,3] 100) 0
    (by decide) (by decide)

/-- C9: the claim says close is idempotent and destructor-after-close is
safe.  It is not: `lzlib4::close` frees the codec states and buffers but
never nulls the pointers, so the destructor's implicit second `close` frees
every pointer again.  On a handle holding four live allocations the first
close is clean (`false`) and the second one double-frees (`true`). -/
theorem c9_second_close_double_frees :
    closeThenDestruct ⟨some 1, some 2, some 3, some 4, none, none⟩ [1,2,3,4] =
      (false, true) := by
  decide

/-- C2 counterexample: the claim says a decompress call whose output space is
smaller than a block's declared uncompressed size exits with success.  It
does not: decompressing a block of uncompressed size 2 with `avail_out = 1`
returns `LZLIB4_RC_BUFFER_ERROR` (an error), producing nothing and consuming
nothing. -/
theorem c2_output_smaller_than_block_is_error :
    (decompress modelCodec true 10
        ((decompInit modelCodec []).withCursors (encodeBlock [7,7]) 1)).map
      (fun q => (q.1, q.2.written_out, q.2.next_in)) =
      some (Rc.bufferError, [], encodeBlock [7,7]) := by
  decide

/-- C10 counterexample: the claim says allocation failure is reported as an
error kind distinct from other failures and leaves no half-updated buffer
fields.  Neither holds: a failed grow of the decompression input buffer
returns the same `LZLIB4_RC_BUFFER_ERROR` that an output-space shortfall
returns, and it leaves `decompress_in_size_real = 1` (the old capacity)
while the buffer pointer is NULL — a half-updated pair. -/
theorem c10_alloc_failure_not_distinct_and_stale_capacity :
    (decompress modelCodec true 10
        { (decompInit modelCodec [false]).withCursors (encodeBlock [5,6]) 10 with
          decompress_in_size_real := 1, decompress_in_alloc := true }).map
      (fun q => (q.1, q.2.decompress_in_alloc, q.2.decompress_in_size_real)) =
      some (Rc.bufferError, false, 1) ∧
    (decompress modelCodec true 10
        ((decompInit modelCodec []).withCursors (encodeBlock [5,6]) 1)).map
      (fun q => q.1) = some Rc.bufferError := by
  decide

theorem compress_loop_done_flush {c : LZ4Codec} {fuel : Nat}
    {st st' : CompStream c.CSt} {flush f : Nat}
    (h : compress_loop c fuel st flush = some (.done st' f)) : f = 0 := by
  induction fuel generalizing st flush with
  | zero => simp [compress_loop] at h
  | succ n ih =>
    rw [compress_loop] at h
    split at h
    · split at h
      · simp at h
      · exact ih h
    · rename_i hcond
      simp only [Option.some.injEq, CompExit.done.injEq] at h
      omega

set_option maxHeartbeats 1000000 in
theorem compress_step_model_strm (st : CompStream Nat) (flush : Nat) :
    (compress_step modelCodec st flush).strmOf = st.strm_lz4 := by
  unfold compress_step
  dsimp only
  split_ifs <;> simp [CStepRes.strmOf]

theorem compress_loop_model_strm {fuel : Nat} {st : CompStream Nat}
    {flush : Nat} {ex : CompExit Nat}
    (h : compress_loop modelCodec fuel st flush = some ex) :
    ex.strmOf = st.strm_lz4 := by
  induction fuel generalizing st flush with
  | zero => simp [compress_loop] at h
  | succ n ih =>
    rw [compress_loop] at h
    split at h
    · have hstep := compress_step_model_strm st flush
      split at h
      · rename_i heq
        rw [heq] at hstep
        simp only [Option.some.injEq] at h
        rw [← h]
        exact hstep
      · rename_i heq
        rw [heq] at hstep
        rw [ih h]
        exact hstep
    · simp only [Option.some.injEq] at h
      rw [← h]
      rfl

/-- C3: the claim says the codec dictionary is reset after the loop iff the
call was made with `flush_mode == Finish`.  In fact the reset at the end of
`lzlib4::compress` is dead code: the loop can only terminate with the local
`flush_mode` cleared to `LZLIB4_NO_FLUSH`, so the post-loop
`flush_mode == LZLIB4_FINISH` test never fires.  Under `modelCodec`, whose
reset increments the state counter, every successful call — for every flush
mode including `LZLIB4_FINISH` — returns the dictionary state unchanged. -/
theorem c3_reset_never_invoked (fuel flush : Nat) (st : CompStream Nat)
    (rc : Rc) (st' : CompStream Nat)
    (h : compress modelCodec fuel st flush = some (rc, st')) :
    st'.strm_lz4 = st.strm_lz4 := by
  unfold compress at h
  split at h
  · simp only [Option.some.injEq, Prod.mk.injEq] at h
    rw [← h.2]
  · rename_i hmode
    rcases hloop : compress_loop modelCodec fuel st flush with _ | ex
    · rw [hloop] at h
      simp at h
    · rw [hloop] at h
      have hstrm := compress_loop_model_strm hloop
      cases ex with
      | early rc0 s0 =>
        simp only [Option.some.injEq, Prod.mk.injEq] at h
        rw [← h.2]
        simpa [CompExit.strmOf] using hstrm
      | done s0 f0 =>
        have hf0 : f0 = 0 := compress_loop_done_flush hloop
        subst hf0
        simp only [LZLIB4_FINISH, show (0 : Nat) ≠ 4 by decide, if_false,
          Option.some.injEq, Prod.mk.injEq, if_neg] at h
        rw [← h.2]
        simpa [CompExit.strmOf] using hstrm

/-- Witness for C3: a concrete `LZLIB4_FINISH` call that succeeds and leaves
the reset counter untouched. -/
theorem c3_reset_never_invoked_witness :
    (((compress modelCodec 10
        ((compInit modelCodec 4 LZLIB4_INPUT_SPLIT 9).withCursors [1,2,3] 100)
        LZLIB4_FINISH).map Prod.snd).getD
        ((compInit modelCodec 4 LZLIB4_INPUT_SPLIT 9).withCursors [1,2,3] 100)).strm_lz4 =
      ((compInit modelCodec 4 LZLIB4_INPUT_SPLIT 9).withCursors [1,2,3] 100).strm_lz4 :=
  c3_reset_never_invoked 10 LZLIB4_FINISH
    ((compInit modelCodec 4 LZLIB4_INPUT_SPLIT 9).withCursors [1,2,3] 100) Rc.ok
    _ (by decide)

theorem decompress_step_bad_header (c : LZ4Codec) (cc : Bool)
    (st : DecompStream c.DSt) (hdr : BlockHeader)
    (hpart : st.partial_block = false)
    (hbad : readU32 st.next_in = 0 ∨ readU32 (st.next_in.drop 4) = 0 ∨
      readU32 (st.next_in.drop 8) = 0 ∨
      readU32 st.next_in > LZ4_COMPRESSBOUND LZLIB4_MAX_BLOCK_SIZE ∨
      readU32 (st.next_in.drop 4) > LZLIB4_MAX_BLOCK_SIZE) :
    decompress_step c cc st hdr = .ret .blockDamaged st := by
  unfold decompress_step
  simp only [hpart, Bool.false_eq_true, if_false]
  by_cases h0 : readU32 st.next_in = 0 ∨ readU32 (st.next_in.drop 4) = 0 ∨
      readU32 (st.next_in.drop 8) = 0
  · simp [h0]
  · have hb : readU32 st.next_in > LZ4_COMPRESSBOUND LZLIB4_MAX_BLOCK_SIZE ∨
        readU32 (st.next_in.drop 4) > LZLIB4_MAX_BLOCK_SIZE := by tauto
    simp [h0, hb]

/-- C4: when a decompress call starts a new block, a header whose
compressed_size, uncompressed_size or checksum field is zero, or whose
compressed_size exceeds `LZ4_COMPRESSBOUND(LZLIB4_MAX_BLOCK_SIZE)` or whose
uncompressed_size exceeds `LZLIB4_MAX_BLOCK_SIZE`, is rejected with
BlockDamaged before any buffer allocation: the call returns with the stream
completely unchanged (capacities, allocation flags, allocator outcomes,
cursors and output all untouched). -/
theorem c4_bad_header_rejected_before_alloc (c : LZ4Codec) (cc : Bool)
    (fuel : Nat) (st : DecompStream c.DSt)
    (hpart : st.partial_block = false) (havail : st.avail_in ≠ 0)
    (hbad : readU32 st.next_in = 0 ∨ readU32 (st.next_in.drop 4) = 0 ∨
      readU32 (st.next_in.drop 8) = 0 ∨
      readU32 st.next_in > LZ4_COMPRESSBOUND LZLIB4_MAX_BLOCK_SIZE ∨
      readU32 (st.next_in.drop 4) > LZLIB4_MAX_BLOCK_SIZE) :
    decompress c cc (fuel + 1) st = some (.blockDamaged, st) := by
  unfold decompress
  rw [decompress_loop]
  rw [if_pos havail, decompress_step_bad_header c cc st ⟨0, 0, 0⟩ hpart hbad]

/-- Witness for C4: a concrete header with nonzero sizes but checksum 0 is
rejected with BlockDamaged and allocates nothing. -/
theorem c4_bad_header_rejected_before_alloc_witness :
    decompress modelCodec true 3
        ((decompInit modelCodec []).withCursors (u32le 1 ++ u32le 1 ++ u32le 0 ++ [0, 9]) 100) =
      some (.blockDamaged,
        (decompInit modelCodec []).withCursors (u32le 1 ++ u32le 1 ++ u32le 0 ++ [0, 9]) 100) :=
  c4_bad_header_rejected_before_alloc modelCodec true 2
    ((decompInit modelCodec []).withCursors (u32le 1 ++ u32le 1 ++ u32le 0 ++ [0, 9]) 100)
    (by decide) (by decide) (by decide)

/-- C10 amended: on allocation failure while growing the decompression input
buffer, the call reports the generic `LZLIB4_RC_BUFFER_ERROR` code (shared
with other buffer failures, not a distinct kind), the buffer pointer is left
NULL (the old buffer was already freed) while `decompress_in_size_real`
keeps its former, now stale, value; everything else in the stream is
unchanged, so a subsequent `close` skips the NULL pointer cleanly. -/
theorem c10_alloc_failure_reports_buffer_error (c : LZ4Codec) (cc : Bool)
    (fuel : Nat) (st : DecompStream c.DSt) (rest : List Bool)
    (hpart : st.partial_block = false) (havail : st.avail_in ≠ 0)
    (hc : readU32 st.next_in ≠ 0) (hu : readU32 (st.next_in.drop 4) ≠ 0)
    (hcrc : readU32 (st.next_in.drop 8) ≠ 0)
    (hcb : ¬ readU32 st.next_in > LZ4_COMPRESSBOUND LZLIB4_MAX_BLOCK_SIZE)
    (hub : ¬ readU32 (st.next_in.drop 4) > LZLIB4_MAX_BLOCK_SIZE)
    (hout : ¬ readU32 (st.next_in.drop 4) > st.avail_out)
    (hgrow : readU32 st.next_in > st.decompress_in_size_real)
    (halloc : st.allocs = false :: rest) :
    decompress c cc (fuel + 1) st =
      some (.bufferError,
        { st with decompress_in_alloc := false, allocs := rest }) := by
  unfold decompress
  rw [decompress_loop]
  rw [if_pos havail]
  have hstep : decompress_step c cc st ⟨0, 0, 0⟩ =
      .ret .bufferError { st with decompress_in_alloc := false, allocs := rest } := by
    unfold decompress_step
    simp only [hpart, Bool.false_eq_true, if_false]
    have h0 : ¬ (readU32 st.next_in = 0 ∨ readU32 (st.next_in.drop 4) = 0 ∨
        readU32 (st.next_in.drop 8) = 0) := by tauto
    have hb : ¬ (readU32 st.next_in > LZ4_COMPRESSBOUND LZLIB4_MAX_BLOCK_SIZE ∨
        readU32 (st.next_in.drop 4) > LZLIB4_MAX_BLOCK_SIZE) := by tauto
    simp [h0, hb, hout, hgrow, halloc, nextAlloc]
  rw [hstep]

/-- Witness for C10's amended statement at a concrete stream whose allocator
fails once. -/
theorem c10_alloc_failure_reports_buffer_error_witness :
    decompress modelCodec true 3
        { (decompInit modelCodec [false]).withCursors (encodeBlock [5,6]) 10 with
          decompress_in_size_real := 1, decompress_in_alloc := true } =
      some (.bufferError,
        { ({ (decompInit modelCodec [false]).withCursors (encodeBlock [5,6]) 10 with
             decompress_in_size_real := 1, decompress_in_alloc := true }) with
          decompress_in_alloc := false, allocs := [] }) :=
  c10_alloc_failure_reports_buffer_error modelCodec true 2
    { (decompInit modelCodec [false]).withCursors (encodeBlock [5,6]) 10 with
      decompress_in_size_real := 1, decompress_in_alloc := true } []
    (by decide) (by decide) (by decide) (by decide) (by decide) (by decide)
    (by decide) (by decide) (by decide) (by decide)

theorem parse_encodeBlock (P rest : List Nat) (h : P.length + 1 < 4294967296) :
    readU32 (encodeBlock P ++ rest) = P.length + 1 ∧
    readU32 ((encodeBlock P ++ rest).drop 4) = P.length ∧
    readU32 ((encodeBlock P ++ rest).drop 8) = crc32 P ∧
    (encodeBlock P ++ rest).drop 12 = modelCompressBytes P ++ rest ∧
    (encodeBlock P ++ rest).length = 13 + P.length + rest.length := by
  have hc := crc32_lt P
  refine ⟨?_, ?_, ?_, ?_, ?_⟩ <;>
    simp [encodeBlock, u32le, readU32, modelCompressBytes, List.getD_cons_zero,
      List.getD_cons_succ] <;> omega

theorem encodeBlock_length (P : List Nat) : (encodeBlock P).length = 13 + P.length := by
  simp [encodeBlock, u32le, modelCompressBytes]
  omega

theorem decompress_step_model_block (cc : Bool) (P rest : List Nat)
    (st : DecompStream Unit) (hdr : BlockHeader)
    (hin : st.next_in = encodeBlock P ++ rest)
    (havail : st.avail_in = st.next_in.length)
    (hpart : st.partial_block = false)
    (hbuf : st.decompress_in_buf = [])
    (halloc : st.allocs = [])
    (hpos : 0 < P.length) (hmax : P.length ≤ LZLIB4_MAX_BLOCK_SIZE)
    (hcrc : crc32 P ≠ 0)
    (hout : P.length ≤ st.avail_out) (houtlt : st.avail_out < SIZE_T_MOD)
    (hrest : rest.length < 4294967296) :
    decompress_step modelCodec cc st hdr =
      if st.avail_out - P.length = 0 then .brk (blockResult P rest st)
      else .next (blockResult P rest st) ⟨P.length + 1, P.length, crc32 P⟩ := by
  have hmax' : P.length ≤ 65280 := by
    simpa [LZLIB4_MAX_BLOCK_SIZE] using hmax
  have hlt : P.length + 1 < 4294967296 := by omega
  obtain ⟨h1, h2, h3, h4, h5⟩ := parse_encodeBlock P rest hlt
  have havail_eq : st.avail_in = 13 + P.length + rest.length := by
    rw [havail, hin, h5]
  have hmod : SIZE_T_MOD = 18446744073709551616 := rfl
  have havlt : st.avail_in < SIZE_T_MOD := by
    rw [havail_eq, hmod]; omega
  have hsub12 : sub64 st.avail_in 12 = 1 + P.length + rest.length := by
    rw [sub64_eq_sub (by rw [havail_eq]; omega) havlt, havail_eq]
    omega
  have hz : ¬ (P.length + 1 = 0 ∨ P.length = 0 ∨ crc32 P = 0) := by
    push_neg
    exact ⟨Nat.succ_ne_zero _, by omega, hcrc⟩
  have hbnd : ¬ (P.length + 1 > LZ4_COMPRESSBOUND LZLIB4_MAX_BLOCK_SIZE ∨
      P.length > LZLIB4_MAX_BLOCK_SIZE) := by
    simp only [LZ4_COMPRESSBOUND, LZLIB4_MAX_BLOCK_SIZE]
    omega
  have houtc : ¬ P.length > st.avail_out := by omega
  have hminr : min (P.length + 1) (1 + P.length + rest.length) = P.length + 1 := by
    omega
  have hmcb_len : (modelCompressBytes P).length = P.length + 1 := by
    simp [modelCompressBytes]
  have hreadp : readBytes (modelCompressBytes P ++ rest) (P.length + 1) =
      modelCompressBytes P := by
    rw [readBytes_of_le (by rw [List.length_append, hmcb_len]; omega), ← hmcb_len, List.take_left]
  have hdropp : (modelCompressBytes P ++ rest).drop (P.length + 1) = rest := by
    rw [← hmcb_len, List.drop_left]
  have hsubp : sub64 (1 + P.length + rest.length) (P.length + 1) = rest.length := by
    rw [sub64_eq_sub (by omega) (by rw [hmod]; omega)]
    omega
  have hdecode : (modelCompressBytes P).tail.take P.length = P := by
    simp [modelCompressBytes]
  have hsubout : sub64 st.avail_out P.length = st.avail_out - P.length :=
    sub64_eq_sub hout houtlt
  have henc_len : (encodeBlock P).length = 13 + P.length := by
    simp [encodeBlock, u32le, modelCompressBytes]
    omega
  have hdropfull : (encodeBlock P ++ rest).drop (12 + (P.length + 1)) = rest := by
    rw [show 12 + (P.length + 1) = (encodeBlock P).length by rw [henc_len]; omega,
      List.drop_left]
  unfold decompress_step
  simp only [hpart, Bool.false_eq_true, if_false, hin, h1, h2, h3, h4, h5]
  rw [if_neg hz, if_neg hbnd, if_neg houtc]
  by_cases hgi : P.length + 1 > st.decompress_in_size_real <;>
    by_cases hgo : P.length > st.decompress_out_size_real <;>
      simp [hgi, hgo, halloc, hbuf, nextAlloc, HEADER_SIZE, hin, h1, h2, h3, h4,
        h5, hsub12, hminr, hmcb_len, hreadp, hdropp, hdropfull, hsubp, hdecode,
        hsubout, blockResult, hpos.ne', Nat.succ_ne_zero]

theorem decompress_model_block_exact (cc : Bool) (P rest : List Nat)
    (st : DecompStream Unit) (fuel : Nat)
    (hin : st.next_in = encodeBlock P ++ rest)
    (havail : st.avail_in = st.next_in.length)
    (hpart : st.partial_block = false)
    (hbuf : st.decompress_in_buf = [])
    (halloc : st.allocs = [])
    (hpos : 0 < P.length) (hmax : P.length ≤ LZLIB4_MAX_BLOCK_SIZE)
    (hcrc : crc32 P ≠ 0)
    (hout_eq : st.avail_out = P.length)
    (hrest : rest.length < 4294967296) :
    decompress modelCodec cc (fuel + 1) st = some (.ok, blockResult P rest st) := by
  have hmax' : P.length ≤ 65280 := by simpa [LZLIB4_MAX_BLOCK_SIZE] using hmax
  have havne : st.avail_in ≠ 0 := by
    rw [havail, hin, List.length_append, encodeBlock_length]
    omega
  have hout : P.length ≤ st.avail_out := by omega
  have houtlt : st.avail_out < SIZE_T_MOD := by
    rw [hout_eq, show SIZE_T_MOD = 18446744073709551616 from rfl]
    omega
  unfold decompress
  rw [decompress_loop, if_pos havne,
    decompress_step_model_block cc P rest st ⟨0, 0, 0⟩ hin havail hpart hbuf halloc
      hpos hmax hcrc hout houtlt hrest]
  rw [if_pos (by omega : st.avail_out - P.length = 0)]

theorem decompress_partial_copy_call (cc : Bool) (st : DecompStream Unit)
    (fuel : Nat)
    (hix : st.decompress_tmp_index < st.decompress_tmp_size)
    (hsz : st.decompress_tmp_size ≤ st.decompress_tmp_buffer.length)
    (hs : 0 < st.avail_out)
    (hsle : st.avail_out ≤ st.decompress_tmp_size - st.decompress_tmp_index) :
    decompress_partial modelCodec false cc (fuel + 2) st =
      some (.ok, afterCopy st) := by
  unfold decompress_partial
  rw [decompress_partial_loop, if_pos hs.ne']
  rw [if_neg (show ¬ (st.decompress_tmp_size - st.decompress_tmp_index = 0 ∨
    false = true) by simp; omega)]
  dsimp only
  rw [if_neg (show ¬ (st.decompress_tmp_size - st.decompress_tmp_index = 0 ∧
    st.avail_in = 0) by omega)]
  have hmin : min (st.decompress_tmp_size - st.decompress_tmp_index) st.avail_out =
      st.avail_out := by omega
  have hread : readBytes (st.decompress_tmp_buffer.drop st.decompress_tmp_index)
      st.avail_out =
      (st.decompress_tmp_buffer.drop st.decompress_tmp_index).take st.avail_out := by
    apply readBytes_of_le
    rw [List.length_drop]
    omega
  rw [hmin, hread]
  rw [decompress_partial_loop]
  rw [if_neg (by simp)]
  simp [afterCopy]

theorem decompress_partial_first_call (cc : Bool) (P : List Nat)
    (st : DecompStream Unit) (fuel : Nat)
    (hin : st.next_in = encodeBlock P)
    (havail : st.avail_in = st.next_in.length)
    (hpart : st.partial_block = false)
    (hbuf : st.decompress_in_buf = [])
    (halloc : st.allocs = [])
    (htszr : st.decompress_tmp_size_real < P.length)
    (htsz : st.decompress_tmp_size = 0) (htix : st.decompress_tmp_index = 0)
    (hpos : 0 < P.length) (hmax : P.length ≤ LZLIB4_MAX_BLOCK_SIZE)
    (hcrc : crc32 P ≠ 0)
    (hs : 0 < st.avail_out) (hsle : st.avail_out ≤ P.length) :
    decompress_partial modelCodec false cc (fuel + 2) st =
      some (.ok, afterFirst P st) := by
  have hmax' : P.length ≤ 65280 := by simpa [LZLIB4_MAX_BLOCK_SIZE] using hmax
  have hlt : P.length + 1 < 4294967296 := by omega
  have hin' : st.next_in = encodeBlock P ++ [] := by rw [hin, List.append_nil]
  obtain ⟨h1, h2, h3, h4, h5⟩ := parse_encodeBlock P [] hlt
  unfold decompress_partial
  rw [decompress_partial_loop, if_pos hs.ne']
  rw [if_pos (Or.inl (by omega))]
  rw [hin']
  rw [h1, h2]
  rw [if_neg (show ¬ (P.length + 1 > LZ4_COMPRESSBOUND LZLIB4_MAX_BLOCK_SIZE ∨
    P.length > LZLIB4_MAX_BLOCK_SIZE) by
      simp only [LZ4_COMPRESSBOUND, LZLIB4_MAX_BLOCK_SIZE]
      omega)]
  rw [if_pos (show P.length > st.decompress_tmp_size_real from htszr)]
  rw [halloc]
  dsimp only [nextAlloc]
  have hinner : decompress modelCodec cc (fuel + 1)
      { st with
          decompress_tmp_size_real := P.length, allocs := [],
          written_out := [], avail_out := P.length } =
      some (.ok, blockResult P []
        { st with
            decompress_tmp_size_real := P.length, allocs := [],
            written_out := [], avail_out := P.length }) := by
    exact decompress_model_block_exact cc P [] _ fuel
      (by simpa using hin') (by simpa using havail) (by simpa using hpart)
      (by simpa using hbuf) (by simp) hpos hmax hcrc (by simp) (by simp)
  rw [hin'] at hinner
  simp only [nextAlloc, reduceIte]
  rw [hinner]
  dsimp only
  rw [if_neg (show ¬ (Rc.ok ≠ Rc.ok) by simp)]
  have hminP : min P.length st.avail_out = st.avail_out := min_eq_right hsle
  have hreadPS : readBytes (P ++ st.decompress_tmp_buffer.drop P.length)
      st.avail_out = P.take st.avail_out := by
    rw [readBytes_of_le (by rw [List.length_append]; omega),
      List.take_append_of_le_length hsle]
  simp [blockResult, afterFirst, hpos.ne', hminP, hreadPS,
    decompress_partial_loop]

theorem runSlices_copy (cc : Bool) (P junk : List Nat) (ss : List Nat)
    (st : DecompStream Unit)
    (htmp : st.decompress_tmp_buffer = P ++ junk)
    (hsize : st.decompress_tmp_size = P.length)
    (havail0 : st.avail_in = 0)
    (hidx : st.decompress_tmp_index + ss.sum = P.length)
    (hss : ∀ s ∈ ss, 0 < s) :
    (runSlices cc 4 ss st).map (fun r => r.written_out) =
      some (st.written_out ++ P.drop st.decompress_tmp_index) := by
  induction ss generalizing st with
  | nil =>
    have hix : st.decompress_tmp_index = P.length := by simpa using hidx
    simp [runSlices, hix]
  | cons s ss ih =>
    have hs : 0 < s := hss s (by simp)
    have hsum_le : s + ss.sum = P.length - st.decompress_tmp_index := by
      have := hidx
      simp only [List.sum_cons] at this
      omega
    have hixlt : st.decompress_tmp_index < P.length := by omega
    have hcall : decompress_partial modelCodec false cc 4
        { st with avail_out := s } =
        some (.ok, afterCopy { st with avail_out := s }) :=
      decompress_partial_copy_call cc { st with avail_out := s } 2
        (by simpa [hsize] using hixlt)
        (by simp [hsize, htmp])
        (by simpa using hs)
        (by simp only [hsize]; omega)
    rw [runSlices, hcall]
    have hcopy_w : (afterCopy { st with avail_out := s }).written_out =
        st.written_out ++ (P.drop st.decompress_tmp_index).take s := by
      simp only [afterCopy, htmp]
      rw [List.drop_append_of_le_length (by omega),
        List.take_append_of_le_length (by simp [List.length_drop]; omega)]
    have hres := ih (afterCopy { st with avail_out := s })
      (by simp [afterCopy, htmp])
      (by simp [afterCopy, hsize])
      (by simp [afterCopy, havail0])
      (by simp only [afterCopy]; simp only [List.sum_cons] at hidx; omega)
      (fun x hx => hss x (by simp [hx]))
    dsimp only
    rw [hres, hcopy_w]
    have hdd : P.drop (st.decompress_tmp_index + s) =
        (P.drop st.decompress_tmp_index).drop s := by
      rw [List.drop_drop]
    simp only [afterCopy]
    rw [hdd, List.append_assoc, List.take_append_drop]

/-- C2 (amended): a decompress call whose output space fills exactly at a
block boundary exits with success (return 0), consuming exactly that block;
a subsequent call on the same stream with fresh output space resumes at the
next block with no data loss or duplication (the outputs concatenate to
P1 ++ P2).  A block whose declared uncompressed size exceeds the call's
remaining output space is instead rejected with BUFFER_ERROR (see the
counterexample theorem). -/
theorem c2_block_boundary_resumption (cc : Bool) (P1 P2 : List Nat)
    (h1pos : 0 < P1.length) (h1max : P1.length ≤ LZLIB4_MAX_BLOCK_SIZE)
    (h1crc : crc32 P1 ≠ 0)
    (h2pos : 0 < P2.length) (h2max : P2.length ≤ LZLIB4_MAX_BLOCK_SIZE)
    (h2crc : crc32 P2 ≠ 0) :
    (decompress modelCodec cc 2
        ((decompInit modelCodec []).withCursors (encodeBlock P1 ++ encodeBlock P2)
          P1.length)).map (fun q => (q.1, q.2.written_out, q.2.next_in)) =
      some (Rc.ok, P1, encodeBlock P2) ∧
    ((decompress modelCodec cc 2
        ((decompInit modelCodec []).withCursors (encodeBlock P1 ++ encodeBlock P2)
          P1.length)).bind (fun q =>
      decompress modelCodec cc 2 { q.2 with avail_out := P2.length })).map
        (fun r => (r.1, r.2.written_out)) = some (Rc.ok, P1 ++ P2) := by
  have h2max' : P2.length ≤ 65280 := by simpa [LZLIB4_MAX_BLOCK_SIZE] using h2max
  have hcall1 : decompress modelCodec cc 2
      ((decompInit modelCodec []).withCursors (encodeBlock P1 ++ encodeBlock P2)
        P1.length) =
      some (.ok, blockResult P1 (encodeBlock P2)
        ((decompInit modelCodec []).withCursors (encodeBlock P1 ++ encodeBlock P2)
          P1.length)) := by
    exact decompress_model_block_exact cc P1 (encodeBlock P2) _ 1
      rfl rfl rfl rfl rfl h1pos h1max h1crc rfl
      (by rw [encodeBlock_length]; omega)
  have hcall2 : decompress modelCodec cc 2
      { blockResult P1 (encodeBlock P2)
          ((decompInit modelCodec []).withCursors (encodeBlock P1 ++ encodeBlock P2)
            P1.length) with avail_out := P2.length } =
      some (.ok, blockResult P2 []
        { blockResult P1 (encodeBlock P2)
            ((decompInit modelCodec []).withCursors (encodeBlock P1 ++ encodeBlock P2)
              P1.length) with avail_out := P2.length }) := by
    exact decompress_model_block_exact cc P2 [] _ 1
      (by simp [blockResult]) (by simp [blockResult]) rfl rfl rfl
      h2pos h2max h2crc rfl (by simp)
  constructor
  · rw [hcall1]
    simp [blockResult, decompInit, DecompStream.withCursors]
  · rw [hcall1]
    simp only [Option.some_bind]
    rw [hcall2]
    simp [blockResult, decompInit, DecompStream.withCursors]

/-- Witness for C2's amended statement at concrete one-byte blocks. -/
theorem c2_block_boundary_resumption_witness :
    (0 < ([1] : List Nat).length ∧ crc32 [1] ≠ 0 ∧ crc32 [2] ≠ 0) ∧
    ((decompress modelCodec true 2
        ((decompInit modelCodec []).withCursors (encodeBlock [1] ++ encodeBlock [2])
          ([1] : List Nat).length)).map
      (fun q => (q.1, q.2.written_out, q.2.next_in)) =
      some (Rc.ok, [1], encodeBlock [2]) ∧
    ((decompress modelCodec true 2
        ((decompInit modelCodec []).withCursors (encodeBlock [1] ++ encodeBlock [2])
          ([1] : List Nat).length)).bind (fun q =>
      decompress modelCodec true 2
        { q.2 with avail_out := ([2] : List Nat).length })).map
        (fun r => (r.1, r.2.written_out)) = some (Rc.ok, [1] ++ [2])) :=
  ⟨by decide, c2_block_boundary_resumption true [1] [2] (by decide) (by decide)
    (by decide) (by decide) (by decide) (by decide)⟩

/-- C8: reading one valid compressed block through `decompress_partial` in
many small output slices (sizes `s1 :: ss`, positive, summing to the block's
uncompressed size) across repeated calls produces concatenated output equal
to the payload `P`, which is exactly what a single `decompress` call with
sufficient output space produces. -/
theorem c8_chunked_output_equals_single_call (cc : Bool) (P : List Nat) (s1 : Nat) (ss : List Nat)
    (hpos : 0 < P.length) (hmax : P.length ≤ LZLIB4_MAX_BLOCK_SIZE)
    (hcrc : crc32 P ≠ 0)
    (hss : ∀ s ∈ s1 :: ss, 0 < s) (hsum : (s1 :: ss).sum = P.length) :
    (runSlices cc 4 (s1 :: ss)
        ((decompInit modelCodec []).withCursors (encodeBlock P) 0)).map
      (fun r => r.written_out) = some P ∧
    (decompress modelCodec cc 2
        ((decompInit modelCodec []).withCursors (encodeBlock P) P.length)).map
      (fun q => (q.1, q.2.written_out)) = some (Rc.ok, P) := by
  have hs1 : 0 < s1 := hss s1 (by simp)
  have hsums : s1 + ss.sum = P.length := by simpa using hsum
  have hs1le : s1 ≤ P.length := by omega
  constructor
  · have hfirst : decompress_partial modelCodec false cc 4
        { (decompInit modelCodec []).withCursors (encodeBlock P) 0 with
            avail_out := s1 } =
        some (.ok, afterFirst P
          { (decompInit modelCodec []).withCursors (encodeBlock P) 0 with
              avail_out := s1 }) :=
      decompress_partial_first_call cc P _ 2
        (by simp [decompInit, DecompStream.withCursors])
        (by simp [decompInit, DecompStream.withCursors])
        (by simp [decompInit, DecompStream.withCursors])
        (by simp [decompInit, DecompStream.withCursors])
        (by simp [decompInit, DecompStream.withCursors])
        (by simpa [decompInit, DecompStream.withCursors] using hpos)
        (by simp [decompInit, DecompStream.withCursors])
        (by simp [decompInit, DecompStream.withCursors])
        hpos hmax hcrc
        (by simpa [decompInit, DecompStream.withCursors] using hs1)
        (by simpa [decompInit, DecompStream.withCursors] using hs1le)
    rw [runSlices, hfirst]
    dsimp only
    have hrest := runSlices_copy cc P [] ss
      (afterFirst P { (decompInit modelCodec []).withCursors (encodeBlock P) 0 with
          avail_out := s1 })
      (by simp [afterFirst, decompInit, DecompStream.withCursors])
      (by simp [afterFirst])
      (by simp [afterFirst])
      (by simp [afterFirst, decompInit, DecompStream.withCursors]; omega)
      (fun x hx => hss x (by simp [hx]))
    rw [hrest]
    simp [afterFirst, decompInit, DecompStream.withCursors]
  · have hone : decompress modelCodec cc 2
        ((decompInit modelCodec []).withCursors (encodeBlock P) P.length) =
        some (.ok, blockResult P []
          ((decompInit modelCodec []).withCursors (encodeBlock P) P.length)) :=
      decompress_model_block_exact cc P [] _ 1
        (by simp [decompInit, DecompStream.withCursors])
        (by simp [decompInit, DecompStream.withCursors])
        (by simp [decompInit, DecompStream.withCursors])
        (by simp [decompInit, DecompStream.withCursors])
        (by simp [decompInit, DecompStream.withCursors])
        hpos hmax hcrc
        (by simp [decompInit, DecompStream.withCursors])
        (by simp)
    rw [hone]
    simp [blockResult, decompInit, DecompStream.withCursors]

/-- Witness for C8 at a concrete three-byte block read in slices 1 and 2. -/
theorem c8_chunked_output_equals_single_call_witness :
    (0 < ([1, 2, 3] : List Nat).length ∧ crc32 [1, 2, 3] ≠ 0 ∧
      (1 :: [2]).sum = ([1, 2, 3] : List Nat).length) ∧
    ((runSlices false 4 (1 :: [2])
        ((decompInit modelCodec []).withCursors (encodeBlock [1, 2, 3]) 0)).map
      (fun r => r.written_out) = some [1, 2, 3] ∧
    (decompress modelCodec false 2
        ((decompInit modelCodec []).withCursors (encodeBlock [1, 2, 3])
          ([1, 2, 3] : List Nat).length)).map
      (fun q => (q.1, q.2.written_out)) = some (Rc.ok, [1, 2, 3])) :=
  ⟨by decide, c8_chunked_output_equals_single_call false [1, 2, 3] 1 [2]
    (by decide) (by decide) (by decide) (by decide) (by decide)⟩

end Lzlib4
